import Mathlib

/-!
Shallow embedding of the netcap encoder orchestration framework
(src/encoder/layerEncoder.go): catalog resolution, per-encoder pipeline
assembly, the encode and destroy lifecycle, and the write-serialization
layer. Go strings are Lean strings, the protobuf record payload is kept
abstract as a string, machine I/O failure is injected through an explicit
list of per-write outcomes, and Go panics versus returned errors are kept
apart by the Outcome type.
-/

/-- Result of running a piece of Go code: a normal value, an error value
returned to the caller, or a panic that terminates the process. -/
inductive Outcome (α : Type) where
  | ok : α → Outcome α
  | err : String → Outcome α
  | panicked : String → Outcome α

/-- Outcome is checked for being a panic. -/
def Outcome.isPanic {α : Type} : Outcome α → Bool
  | .panicked _ => true
  | _ => false

/-- Helper for splitComma: walks the character list, cutting at commas. -/
def splitCommaAux : List Char → List Char → List String
  | [], acc => [String.mk acc.reverse]
  | c :: rest, acc =>
    if c = ',' then String.mk acc.reverse :: splitCommaAux rest []
    else splitCommaAux rest (c :: acc)

/-- Model of Go strings.Split(s, ",") as used at layerEncoder.go lines
122 and 123: splitting the empty string yields a single empty segment. -/
def splitComma (s : String) : List String :=
  splitCommaAux s.data []

/-- The serialized payload of one protobuf record (proto.Message),
kept abstract. -/
abbrev Rec := String

/-- A decoded gopacket.Layer handed to Encode, kept abstract. -/
abbrev GoLayer := String

/-- One complete serialized unit reaching a sink: the binary header record
built by NewHeader, the tabular column-name row built from InitRecord, or
one data record. -/
inductive Frame where
  | headerF (t : Nat)
  | csvHeaderF (t : Nat)
  | dataF (r : Rec)
deriving DecidableEq, Repr

/-- Operational state of one sink: the complete frames that reached it so
far, plus the injected outcome of each future write attempt (true means the
underlying I/O fails; an exhausted list means every later write succeeds).
Each write is one atomic step, which is what the AtomicDelimitedWriter and
csvWriter layers guarantee per the spec section on the WriteSerializer. -/
structure SinkState where
  frames : List Frame
  errs : List Bool
deriving DecidableEq, Repr

/-- One atomic write of a complete frame into a sink: it either appends the
whole frame or fails without appending anything, consuming one injected
outcome. -/
def sinkWrite (f : Frame) (s : SinkState) : Except String SinkState :=
  match s.errs with
  | [] => .ok { frames := s.frames ++ [f], errs := [] }
  | b :: rest =>
    if b then .error "write error"
    else .ok { frames := s.frames ++ [f], errs := rest }

/-- Static shape of the writer stack assembled by Init: a raw file, the
in-process channel writer, and the bufio, gzip, delimited, atomic-delimited
and csv wrapping layers. -/
inductive SinkWriter where
  | fileW (path : String)
  | chanW
  | bufW (inner : SinkWriter)
  | gzipW (inner : SinkWriter)
  | delimW (inner : SinkWriter)
  | atomicW (inner : SinkWriter)
  | csvW (inner : SinkWriter)
deriving DecidableEq, Repr

/-- Writer layers that serialize concurrent writers into atomic,
non-interleaved writes. The atomic delimited writer is named for exactly
this; the csv writer is modelled from the spec (its source is outside
src/), which states that every sink regardless of shape is wrapped by the
WriteSerializer. -/
def SinkWriter.isWriteSerializer : SinkWriter → Bool
  | .atomicW _ => true
  | .csvW _ => true
  | _ => false

/-- Observable side effects of initialization and teardown. -/
inductive Event where
  | fileCreated (path : String)
  | headerWritten (layer : String)
  | gzipClosed
  | buffersFlushed
  | fileClosed (path : String)
deriving DecidableEq, Repr

/-- Handler function of a layer encoder (LayerEncoderHandler): it returns
the structured record for the layer, or none for the nil proto.Message
that signals a layer the encoder does not apply to. -/
abbrev LayerEncoderHandler := GoLayer → String → Option Rec

/-- The LayerEncoder struct. The Go field Type is spelled Typ. The Go
writer fields hold the assembled stacks; os.File is represented by the path
of the created file; the chanWriter by a flag. The operational sink state
collects the frames written through whichever writer stack is active. -/
structure LayerEncoder where
  Layer : String
  Typ : Nat
  Handler : LayerEncoderHandler
  file : Option String
  bWriter : Option SinkWriter
  gWriter : Option SinkWriter
  dWriter : Option SinkWriter
  aWriter : Option SinkWriter
  cWriter : Bool
  csvWriter : Option SinkWriter
  sink : SinkState
  compress : Bool
  csv : Bool
  buffer : Bool
  out : String

/-- CreateLayerEncoder mirrors the Go constructor: only Layer, Handler and
Typ are set, every other field is the Go zero value. -/
def CreateLayerEncoder (nt : Nat) (lt : String) (handler : LayerEncoderHandler) : LayerEncoder :=
  { Layer := lt, Typ := nt, Handler := handler, file := none, bWriter := none,
    gWriter := none, dWriter := none, aWriter := none, cWriter := false,
    csvWriter := none, sink := { frames := [], errs := [] },
    compress := false, csv := false, buffer := false, out := "" }

/-- The Config fields read by InitLayerEncoders and Init. -/
structure Config where
  IncludeEncoders : String
  ExcludeEncoders : String
  Buffer : Bool
  Compression : Bool
  CSV : Bool
  Out : String
  WriteChan : Bool

/-- Model of filepath.Join for the two-component joins used here. -/
def pathJoin (dir name : String) : String :=
  if dir = "" then name else dir ++ "/" ++ name

/-- Modelled from the spec: CreateFile (defined outside src/) creates the
sink file whose name is the given base plus the given extension; the file
is represented by that resulting path. -/
def CreateFile (base ext : String) : String := base ++ ext

/-- Init mirrors layerEncoder.go lines 226 to 304: store the flags, then
assemble the writer stack. The tabular branch comes first and returns
early; only the binary branch checks the writeChan flag against buffering
and compression, panicking before any file is created. The event list
records which files were created. -/
def LayerEncoder.Init (d : LayerEncoder) (buffer compress csv : Bool) (out : String)
    (writeChan : Bool) (io : List Bool) : Outcome LayerEncoder × List Event :=
  let d0 : LayerEncoder :=
    { d with compress := compress, buffer := buffer, csv := csv, out := out,
             sink := { frames := [], errs := io } }
  if csv then
    let path := CreateFile (pathJoin out d.Layer) (if compress then ".csv.gz" else ".csv")
    let base := SinkWriter.fileW path
    let stack :=
      if buffer then
        (if compress then SinkWriter.gzipW (SinkWriter.bufW base) else SinkWriter.bufW base)
      else
        (if compress then SinkWriter.gzipW base else base)
    (.ok { d0 with file := some path,
                   bWriter := if buffer then some (SinkWriter.bufW base) else none,
                   gWriter := if compress then some stack else none,
                   csvWriter := some (SinkWriter.csvW stack) },
     [Event.fileCreated path])
  else if writeChan && buffer || writeChan && compress then
    (.panicked "buffering or compression cannot be activated when running using writeChan", [])
  else
    let pathOpt :=
      if writeChan then none
      else some (CreateFile (pathJoin out d.Layer) (if compress then ".ncap.gz" else ".ncap"))
    let base := match pathOpt with
      | some p => SinkWriter.fileW p
      | none => SinkWriter.chanW
    let dW :=
      if buffer then
        (if compress then SinkWriter.delimW (SinkWriter.gzipW (SinkWriter.bufW base))
         else SinkWriter.delimW (SinkWriter.bufW base))
      else
        (if compress then SinkWriter.delimW (SinkWriter.gzipW base) else SinkWriter.delimW base)
    (.ok { d0 with file := pathOpt,
                   cWriter := writeChan,
                   bWriter := if buffer then some (SinkWriter.bufW base) else none,
                   gWriter :=
                     if compress then
                       (if buffer then some (SinkWriter.gzipW (SinkWriter.bufW base))
                        else some (SinkWriter.gzipW base))
                     else none,
                   dWriter := some dW,
                   aWriter := some (SinkWriter.atomicW dW) },
     match pathOpt with
     | some p => [Event.fileCreated p]
     | none => [])

/-- The writer object through which Encode pushes records: the csvWriter
for tabular encoders, the atomic delimited writer otherwise. -/
def writerHandedToEncoder (d : LayerEncoder) : Option SinkWriter :=
  if d.csv then d.csvWriter else d.aWriter

/-- The schema-identifying frame written once per encoder during
InitLayerEncoders: the column-name row from netcap.InitRecord for tabular
sinks, the synthetic record from NewHeader otherwise. Both constructors
live outside src/ and are modelled from the spec as frames carrying the
schema identifier. -/
def headerFrame (csv : Bool) (t : Nat) : Frame :=
  if csv then Frame.csvHeaderF t else Frame.headerF t

/-- Encode mirrors layerEncoder.go lines 204 to 223: run the handler; a nil
record is a silent no-op; otherwise write one serialized unit through the
csv writer or the atomic delimited writer, returning any I/O error to the
caller without retrying and without panicking. -/
def LayerEncoder.Encode (d : LayerEncoder) (l : GoLayer) (timestamp : String) : Outcome LayerEncoder :=
  match d.Handler l timestamp with
  | none => .ok d
  | some decoded =>
    if d.csv then
      match sinkWrite (Frame.dataF decoded) d.sink with
      | .ok s => .ok { d with sink := s }
      | .error m => .err m
    else
      match sinkWrite (Frame.dataF decoded) d.sink with
      | .ok s => .ok { d with sink := s }
      | .error m => .err m

/-- Sequential execution of a list of Encode calls. Because every write
through the serializer is one atomic step, any concurrent execution of
these calls is equivalent to running them in some order, which the list
order represents. -/
def runEncodes (d : LayerEncoder) : List (GoLayer × String) → Outcome LayerEncoder
  | [] => .ok d
  | (l, ts) :: rest =>
    match d.Encode l ts with
    | .ok d1 => runEncodes d1 rest
    | .err m => .err m
    | .panicked m => .panicked m

/-- Modelled from the spec: CloseGzipWriters (defined outside src/)
finalizes the gzip stream, flushing its trailing bytes. -/
def CloseGzipWriters : List Event := [Event.gzipClosed]

/-- Modelled from the spec: FlushWriters (defined outside src/) flushes the
buffered writer. -/
def FlushWriters : List Event := [Event.buffersFlushed]

/-- Modelled from the spec: CloseFile (defined outside src/) closes the
underlying file and reports its final name and size; the size is
represented by the number of records that reached the sink. -/
def CloseFile (file : Option String) (frames : List Frame) : (String × Nat) × Event :=
  ((file.getD "", frames.length), Event.fileClosed (file.getD ""))

/-- Destroy mirrors layerEncoder.go lines 312 to 320: finalize the gzip
writer when compression is active, then flush the buffered writer when
buffering is active, then close the file and report its name and size. -/
def LayerEncoder.Destroy (d : LayerEncoder) : (String × Nat) × List Event :=
  let evG := if d.compress then CloseGzipWriters else []
  let evB := if d.buffer then FlushWriters else []
  let closed := CloseFile d.file d.sink.frames
  (closed.1, evG ++ evB ++ [closed.2])

/-- Include-name pass of InitLayerEncoders (lines 130 to 138): every
non-empty name is validated against the catalog names; invalidProto
(defined outside src/) is modelled from the spec as a fatal error. The
validated names accumulate into the membership map. -/
def collectInclude (allNames : List String) : List String → List String → Outcome (List String)
  | [], acc => .ok acc
  | n :: rest, acc =>
    if n ≠ "" then
      if n ∈ allNames then collectInclude allNames rest (acc ++ [n])
      else .panicked ("invalid protocol: " ++ n)
    else collectInclude allNames rest acc

/-- The splice at lines 154 to 160: remove the first encoder whose layer
name matches, then break. -/
def removeFirst (name : String) : List LayerEncoder → List LayerEncoder
  | [] => []
  | e :: rest => if name = e.Layer then rest else e :: removeFirst name rest

/-- Exclude-name pass of InitLayerEncoders (lines 148 to 162): every
non-empty name is validated against the catalog names and then spliced out
of the current slice. -/
def applyExcludes (allNames : List String) : List String → List LayerEncoder → Outcome (List LayerEncoder)
  | [], sl => .ok sl
  | n :: rest, sl =>
    if n ≠ "" then
      if n ∈ allNames then applyExcludes allNames rest (removeFirst n sl)
      else .panicked ("invalid protocol: " ++ n)
    else applyExcludes allNames rest sl

/-- Resolution phase of InitLayerEncoders (lines 119 to 162), acting on the
current value of the package-level slice and returning its new value: when
the split include list is non-empty and its first entry is not the empty
string, the slice is replaced by the include selection; afterwards every
exclude name is spliced out. -/
def resolveSlice (allNames : List String) (slice : List LayerEncoder)
    (incStr excStr : String) : Outcome (List LayerEncoder) :=
  let inL := splitComma incStr
  let exL := splitComma excStr
  if 0 < inL.length ∧ inL.headD "" ≠ "" then
    match collectInclude allNames inL [] with
    | .ok inMap => applyExcludes allNames exL (slice.filter (fun e => decide (e.Layer ∈ inMap)))
    | .err m => .err m
    | .panicked m => .panicked m
  else
    applyExcludes allNames exL slice

/-- Init loop of InitLayerEncoders (lines 164 to 184): initialize each
resolved encoder, write its header frame through its writer (panicking if
the header write fails), and register it in the LayerEncoders map. -/
def initLoop (c : Config) (env : String → List Bool) :
    List LayerEncoder → List (String × LayerEncoder) →
    Outcome (List (String × LayerEncoder)) × List Event
  | [], reg => (.ok reg, [])
  | e :: rest, reg =>
    let step := e.Init c.Buffer c.Compression c.CSV c.Out c.WriteChan (env e.Layer)
    match step.1 with
    | .err m => (.err m, step.2)
    | .panicked m => (.panicked m, step.2)
    | .ok e1 =>
      match sinkWrite (headerFrame e1.csv e1.Typ) e1.sink with
      | .error m => (.panicked m, step.2)
      | .ok s =>
        let e2 := { e1 with sink := s }
        let next := initLoop c env rest (reg ++ [(e2.Layer, e2)])
        (next.1, step.2 ++ [Event.headerWritten e2.Layer] ++ next.2)

/-- Package-level mutable state of the encoder package: the LayerEncoders
registry map (as insertion-ordered pairs), the layerEncoderSlice catalog
that InitLayerEncoders mutates in place, and allEncoderNames, the
validation set that is modelled from the spec as holding every catalog
name and that InitLayerEncoders never changes. -/
structure PkgState where
  LayerEncoders : List (String × LayerEncoder)
  layerEncoderSlice : List LayerEncoder
  allEncoderNames : List String

/-- InitLayerEncoders mirrors lines 119 to 186 as a transformer of the
package state: resolve the slice (mutating it), then build every resolved
encoder and register it. The environment function supplies the injected
I/O outcomes for each created sink, keyed by layer name. -/
def InitLayerEncoders (c : Config) (env : String → List Bool) (st : PkgState) :
    Outcome PkgState × List Event :=
  match resolveSlice st.allEncoderNames st.layerEncoderSlice c.IncludeEncoders c.ExcludeEncoders with
  | .err m => (.err m, [])
  | .panicked m => (.panicked m, [])
  | .ok slice =>
    let next := initLoop c env slice st.LayerEncoders
    match next.1 with
    | .ok reg =>
      (.ok { LayerEncoders := reg, layerEncoderSlice := slice,
             allEncoderNames := st.allEncoderNames }, next.2)
    | .err m => (.err m, next.2)
    | .panicked m => (.panicked m, next.2)

/-- Resolution as the specification words it, for comparison with the
code: the full catalog when the include set is empty, otherwise the
catalog intersected with the include names, with the exclude names then
subtracted, all in catalog order. -/
def specResolve (catalog : List LayerEncoder) (incNames excNames : List String) : List LayerEncoder :=
  (if incNames.isEmpty then catalog
   else catalog.filter (fun e => decide (e.Layer ∈ incNames))).filter
    (fun e => decide (e.Layer ∉ excNames))

/-- Placeholder handler for catalog entries whose per-protocol handler
functions are defined in other files of the repository. -/
def stubHandler : LayerEncoderHandler := fun _ _ => none

/-- The static catalog of layerEncoder.go lines 40 to 70. The individual
encoder values are defined in other files of the repository; each is
modelled as a CreateLayerEncoder result whose layer name is the gopacket
name matching its identifier. -/
def netcapCatalog : List LayerEncoder :=
  [CreateLayerEncoder 0 "TCP" stubHandler,
   CreateLayerEncoder 1 "UDP" stubHandler,
   CreateLayerEncoder 2 "IPv4" stubHandler,
   CreateLayerEncoder 3 "IPv6" stubHandler,
   CreateLayerEncoder 4 "DHCPv4" stubHandler,
   CreateLayerEncoder 5 "DHCPv6" stubHandler,
   CreateLayerEncoder 6 "ICMPv4" stubHandler,
   CreateLayerEncoder 7 "ICMPv6" stubHandler,
   CreateLayerEncoder 8 "ICMPv6Echo" stubHandler,
   CreateLayerEncoder 9 "ICMPv6NeighborSolicitation" stubHandler,
   CreateLayerEncoder 10 "ICMPv6RouterSolicitation" stubHandler,
   CreateLayerEncoder 11 "DNS" stubHandler,
   CreateLayerEncoder 12 "ARP" stubHandler,
   CreateLayerEncoder 13 "Ethernet" stubHandler,
   CreateLayerEncoder 14 "Dot1Q" stubHandler,
   CreateLayerEncoder 15 "Dot11" stubHandler,
   CreateLayerEncoder 16 "NTP" stubHandler,
   CreateLayerEncoder 17 "SIP" stubHandler,
   CreateLayerEncoder 18 "IGMP" stubHandler,
   CreateLayerEncoder 19 "LLC" stubHandler,
   CreateLayerEncoder 20 "IPv6HopByHop" stubHandler,
   CreateLayerEncoder 21 "SCTP" stubHandler,
   CreateLayerEncoder 22 "SNAP" stubHandler,
   CreateLayerEncoder 23 "LinkLayerDiscovery" stubHandler,
   CreateLayerEncoder 24 "ICMPv6NeighborAdvertisement" stubHandler,
   CreateLayerEncoder 25 "ICMPv6RouterAdvertisement" stubHandler,
   CreateLayerEncoder 26 "EthernetCTP" stubHandler,
   CreateLayerEncoder 27 "EthernetCTPReply" stubHandler,
   CreateLayerEncoder 28 "LinkLayerDiscoveryInfo" stubHandler]

/-- Modelled from the spec: allEncoderNames (defined outside src/) maps
every catalog encoder name, so the validation set is the catalog names. -/
def allCatalogNames : List String :=
  netcapCatalog.map (fun e => e.Layer)

/-- The package state at startup: empty registry, full catalog. -/
def startupState : PkgState :=
  { LayerEncoders := [], layerEncoderSlice := netcapCatalog,
    allEncoderNames := allCatalogNames }

/-- Environment in which every sink write succeeds. -/
def envOk : String → List Bool := fun _ => []

/-!
Lemmas about the resolution phase.
-/

theorem splitCommaAux_ne_nil : ∀ (l acc : List Char), splitCommaAux l acc ≠ [] := by
  intro l
  induction l with
  | nil => intro acc; simp [splitCommaAux]
  | cons c rest ih =>
    intro acc
    by_cases hc : c = ','
    · simp [splitCommaAux, hc]
    · simp only [splitCommaAux, if_neg hc]
      exact ih (c :: acc)

theorem splitComma_ne_nil (s : String) : splitComma s ≠ [] :=
  splitCommaAux_ne_nil s.data []

theorem collectInclude_ok (allNames : List String) :
    ∀ (l acc : List String), (∀ n ∈ l, n ≠ "" → n ∈ allNames) →
      collectInclude allNames l acc = .ok (acc ++ l.filter (fun n => decide (n ≠ ""))) := by
  intro l
  induction l with
  | nil => intro acc _; simp [collectInclude]
  | cons a t ih =>
    intro acc h
    by_cases ha : a = ""
    · subst ha
      have hrec := ih acc (fun n hn => h n (List.mem_cons_of_mem _ hn))
      simp [collectInclude, hrec]
    · have hmem : a ∈ allNames := h a (List.mem_cons_self a t) ha
      have hrec := ih (acc ++ [a]) (fun n hn => h n (List.mem_cons_of_mem _ hn))
      simp [collectInclude, ha, hmem, hrec, List.filter_cons]

theorem collectInclude_panics (allNames : List String) :
    ∀ (l acc : List String), (∃ n ∈ l, n ≠ "" ∧ n ∉ allNames) →
      ∃ m, collectInclude allNames l acc = .panicked m := by
  intro l
  induction l with
  | nil =>
    rintro acc ⟨n, hn, -⟩
    exact absurd hn (List.not_mem_nil n)
  | cons a t ih =>
    rintro acc ⟨n, hmem, hne, hninv⟩
    by_cases ha : a = ""
    · subst ha
      have hnt : n ∈ t := by
        rcases List.mem_cons.mp hmem with h1 | h1
        · exact absurd h1 hne
        · exact h1
      have hrec := ih acc ⟨n, hnt, hne, hninv⟩
      simpa [collectInclude] using hrec
    · by_cases hav : a ∈ allNames
      · have hnt : n ∈ t := by
          rcases List.mem_cons.mp hmem with h1 | h1
          · subst h1; exact absurd hav hninv
          · exact h1
        have hrec := ih (acc ++ [a]) ⟨n, hnt, hne, hninv⟩
        simpa [collectInclude, ha, hav] using hrec
      · exact ⟨"invalid protocol: " ++ a, by simp [collectInclude, ha, hav]⟩

theorem collectInclude_shape (allNames : List String) :
    ∀ (l acc : List String), (∃ r, collectInclude allNames l acc = .ok r) ∨
      (∃ m, collectInclude allNames l acc = .panicked m) := by
  intro l
  induction l with
  | nil => intro acc; exact .inl ⟨acc, rfl⟩
  | cons a t ih =>
    intro acc
    by_cases ha : a = ""
    · subst ha
      simpa [collectInclude] using ih acc
    · by_cases hav : a ∈ allNames
      · simpa [collectInclude, ha, hav] using ih (acc ++ [a])
      · exact .inr ⟨"invalid protocol: " ++ a, by simp [collectInclude, ha, hav]⟩

theorem removeFirst_eq_filter (name : String) :
    ∀ (sl : List LayerEncoder), (sl.map (fun e => e.Layer)).Nodup →
      removeFirst name sl = sl.filter (fun e => decide (e.Layer ≠ name)) := by
  intro sl
  induction sl with
  | nil => intro _; rfl
  | cons e t ih =>
    intro hnd
    rw [List.map_cons, List.nodup_cons] at hnd
    by_cases he : name = e.Layer
    · rw [removeFirst, if_pos he, List.filter_cons]
      have hdec : (decide (e.Layer ≠ name)) = false := by simp [he]
      rw [hdec]
      simp only [Bool.false_eq_true, if_false]
      symm
      apply List.filter_eq_self.mpr
      intro a ha
      simp only [decide_eq_true_eq]
      intro hEq
      have hm : e.Layer ∈ t.map (fun x => x.Layer) := by
        rw [← he, ← hEq]
        exact List.mem_map_of_mem (fun x => x.Layer) ha
      exact hnd.1 hm
    · rw [removeFirst, if_neg he, List.filter_cons]
      have hdec : (decide (e.Layer ≠ name)) = true := by
        simp only [decide_eq_true_eq]
        exact fun hEq => he hEq.symm
      rw [hdec, if_pos rfl, ih hnd.2]

theorem filteredLayerNodup (sl : List LayerEncoder) (p : LayerEncoder → Bool)
    (hnd : (sl.map (fun e => e.Layer)).Nodup) :
    ((sl.filter p).map (fun e => e.Layer)).Nodup :=
  List.Nodup.sublist (List.Sublist.map _ (List.filter_sublist sl)) hnd

theorem applyExcludes_ok (allNames : List String) :
    ∀ (l : List String) (sl : List LayerEncoder),
      (sl.map (fun e => e.Layer)).Nodup →
      (∀ n ∈ l, n ≠ "" → n ∈ allNames) →
      applyExcludes allNames l sl =
        .ok (sl.filter (fun e => decide (e.Layer ∉ l.filter (fun n => decide (n ≠ ""))))) := by
  intro l
  induction l with
  | nil =>
    intro sl _ _
    rw [applyExcludes]
    congr 1
    symm
    apply List.filter_eq_self.mpr
    intro a _
    simp
  | cons a t ih =>
    intro sl hnd h
    by_cases ha : a = ""
    · subst ha
      have hrec := ih sl hnd (fun n hn hne => h n (List.mem_cons_of_mem _ hn) hne)
      simp [applyExcludes, hrec]
    · have hmem : a ∈ allNames := h a (List.mem_cons_self a t) ha
      have hnd2 := filteredLayerNodup sl (fun e => decide (e.Layer ≠ a)) hnd
      have hrec := ih (sl.filter (fun e => decide (e.Layer ≠ a))) hnd2
        (fun n hn hne => h n (List.mem_cons_of_mem _ hn) hne)
      rw [applyExcludes, if_pos ha, if_pos hmem, removeFirst_eq_filter a sl hnd, hrec,
        List.filter_filter]
      congr 1
      apply List.filter_congr
      intro x _
      simp only [List.filter_cons, decide_eq_true_eq, ha, decide_not]
      by_cases hx1 : x.Layer = a
      · simp [hx1, ha]
      · by_cases hx2 : x.Layer ∈ t.filter (fun n => decide (n ≠ ""))
        · simp [hx1, hx2, ha]
        · simp [hx1, hx2, ha]

theorem applyExcludes_panics (allNames : List String) :
    ∀ (l : List String) (sl : List LayerEncoder), (∃ n ∈ l, n ≠ "" ∧ n ∉ allNames) →
      ∃ m, applyExcludes allNames l sl = .panicked m := by
  intro l
  induction l with
  | nil =>
    rintro sl ⟨n, hn, -⟩
    exact absurd hn (List.not_mem_nil n)
  | cons a t ih =>
    rintro sl ⟨n, hmem, hne, hninv⟩
    by_cases ha : a = ""
    · subst ha
      have hnt : n ∈ t := by
        rcases List.mem_cons.mp hmem with h1 | h1
        · exact absurd h1 hne
        · exact h1
      have hrec := ih sl ⟨n, hnt, hne, hninv⟩
      simpa [applyExcludes] using hrec
    · by_cases hav : a ∈ allNames
      · have hnt : n ∈ t := by
          rcases List.mem_cons.mp hmem with h1 | h1
          · subst h1; exact absurd hav hninv
          · exact h1
        have hrec := ih (removeFirst a sl) ⟨n, hnt, hne, hninv⟩
        simpa [applyExcludes, ha, hav] using hrec
      · exact ⟨"invalid protocol: " ++ a, by simp [applyExcludes, ha, hav]⟩

/-- Claim C1: for every catalog slice with distinct layer names and every
configuration whose include segments are not disabled by a leading empty
segment, the resolved slice equals the spec formula, namely the full
catalog when the include name set is empty and otherwise the catalog
intersected with the include names, with the exclude names then
subtracted; the equality is between lists, so catalog order is preserved,
and since the subtraction applies to the include selection a name in both
lists ends up excluded. -/
theorem c1_resolve_matches_spec (allNames : List String) (slice : List LayerEncoder)
    (incStr excStr : String)
    (hnd : (slice.map (fun e => e.Layer)).Nodup)
    (hin : (splitComma incStr).headD "" ≠ "" ∨
      (splitComma incStr).filter (fun n => decide (n ≠ "")) = [])
    (hvi : ∀ n ∈ splitComma incStr, n ≠ "" → n ∈ allNames)
    (hve : ∀ n ∈ splitComma excStr, n ≠ "" → n ∈ allNames) :
    resolveSlice allNames slice incStr excStr =
      .ok (specResolve slice ((splitComma incStr).filter (fun n => decide (n ≠ "")))
        ((splitComma excStr).filter (fun n => decide (n ≠ "")))) := by
  by_cases hg : 0 < (splitComma incStr).length ∧ (splitComma incStr).headD "" ≠ ""
  · obtain ⟨a, t, hat⟩ := List.exists_cons_of_ne_nil (splitComma_ne_nil incStr)
    have ha : a ≠ "" := by
      have := hg.2
      rw [hat] at this
      simpa using this
    simp only [resolveSlice]
    rw [if_pos hg, collectInclude_ok allNames _ [] hvi]
    simp only [List.nil_append]
    rw [applyExcludes_ok allNames _ _
      (filteredLayerNodup slice _ hnd) hve]
    congr 1
    simp only [specResolve]
    rw [if_neg]
    rw [hat, List.filter_cons]
    simp [ha]
  · have hlen : 0 < (splitComma incStr).length :=
      List.length_pos.mpr (splitComma_ne_nil incStr)
    have hempty : (splitComma incStr).filter (fun n => decide (n ≠ "")) = [] := by
      rcases hin with hin | hin
      · exact absurd ⟨hlen, hin⟩ hg
      · exact hin
    simp only [resolveSlice]
    rw [if_neg hg, applyExcludes_ok allNames _ slice hnd hve]
    congr 1
    rw [specResolve, hempty]
    rfl

/-- Witness for c1_resolve_matches_spec at a concrete configuration:
include TCP and DNS, exclude TCP, over the full catalog. -/
theorem c1_resolve_matches_spec_witness :
    resolveSlice allCatalogNames netcapCatalog "TCP,DNS" "TCP" =
      .ok (specResolve netcapCatalog
        ((splitComma "TCP,DNS").filter (fun n => decide (n ≠ "")))
        ((splitComma "TCP").filter (fun n => decide (n ≠ "")))) :=
  c1_resolve_matches_spec allCatalogNames netcapCatalog "TCP,DNS" "TCP"
    (by decide) (by decide) (by decide) (by decide)

theorem resolveSlice_panics_on_bad_name (allNames : List String) (slice : List LayerEncoder)
    (incStr excStr : String)
    (hin : (splitComma incStr).headD "" ≠ "" ∨
      (splitComma incStr).filter (fun n => decide (n ≠ "")) = [])
    (hbad : ∃ n, n ≠ "" ∧ n ∉ allNames ∧
      (n ∈ splitComma incStr ∨ n ∈ splitComma excStr)) :
    ∃ m, resolveSlice allNames slice incStr excStr = .panicked m := by
  obtain ⟨n, hne, hninv, hwhere⟩ := hbad
  by_cases hg : 0 < (splitComma incStr).length ∧ (splitComma incStr).headD "" ≠ ""
  · rcases hwhere with hmem | hmem
    · obtain ⟨m, hm⟩ := collectInclude_panics allNames (splitComma incStr) [] ⟨n, hmem, hne, hninv⟩
      refine ⟨m, ?_⟩
      simp only [resolveSlice]
      rw [if_pos hg, hm]
    · rcases collectInclude_shape allNames (splitComma incStr) [] with ⟨r, hr⟩ | ⟨m, hm⟩
      · obtain ⟨m, hm⟩ := applyExcludes_panics allNames (splitComma excStr)
          (slice.filter (fun e => decide (e.Layer ∈ r))) ⟨n, hmem, hne, hninv⟩
        refine ⟨m, ?_⟩
        simp only [resolveSlice]
        rw [if_pos hg, hr]
        exact hm
      · refine ⟨m, ?_⟩
        simp only [resolveSlice]
        rw [if_pos hg, hm]
  · have hmemEx : n ∈ splitComma excStr := by
      rcases hwhere with hmem | hmem
      · exfalso
        have hlen : 0 < (splitComma incStr).length :=
          List.length_pos.mpr (splitComma_ne_nil incStr)
        rcases hin with hin | hin
        · exact hg ⟨hlen, hin⟩
        · have : n ∈ (splitComma incStr).filter (fun x => decide (x ≠ "")) :=
            List.mem_filter.mpr ⟨hmem, by simpa using hne⟩
          rw [hin] at this
          exact List.not_mem_nil n this
      · exact hmem
    obtain ⟨m, hm⟩ := applyExcludes_panics allNames (splitComma excStr) slice
      ⟨n, hmemEx, hne, hninv⟩
    refine ⟨m, ?_⟩
    simp only [resolveSlice]
    rw [if_neg hg, hm]

/-- Claim C4: a configuration naming a protocol unknown to the catalog in
its include or exclude list makes InitLayerEncoders panic, and the empty
event trace shows that the failure precedes every file creation and every
header write, so no encoder pipeline is ever partially built. The include
list must not be disabled by a leading empty segment for an include-side
name to be validated at all. -/
theorem c4_unknown_name_is_fatal_before_build (c : Config) (env : String → List Bool)
    (st : PkgState)
    (hin : (splitComma c.IncludeEncoders).headD "" ≠ "" ∨
      (splitComma c.IncludeEncoders).filter (fun n => decide (n ≠ "")) = [])
    (hbad : ∃ n, n ≠ "" ∧ n ∉ st.allEncoderNames ∧
      (n ∈ splitComma c.IncludeEncoders ∨ n ∈ splitComma c.ExcludeEncoders)) :
    (∃ m, (InitLayerEncoders c env st).1 = .panicked m) ∧
      (InitLayerEncoders c env st).2 = [] := by
  obtain ⟨m, hm⟩ := resolveSlice_panics_on_bad_name st.allEncoderNames st.layerEncoderSlice
    c.IncludeEncoders c.ExcludeEncoders hin hbad
  constructor
  · exact ⟨m, by simp only [InitLayerEncoders]; rw [hm]⟩
  · simp only [InitLayerEncoders]
    rw [hm]

/-- Witness for c4_unknown_name_is_fatal_before_build: the unknown name
FOO in the exclude list panics with an empty event trace. -/
theorem c4_unknown_name_is_fatal_before_build_witness :
    (∃ m, (InitLayerEncoders
      { IncludeEncoders := "", ExcludeEncoders := "FOO", Buffer := false,
        Compression := false, CSV := false, Out := "out", WriteChan := false }
      envOk startupState).1 = .panicked m) ∧
    (InitLayerEncoders
      { IncludeEncoders := "", ExcludeEncoders := "FOO", Buffer := false,
        Compression := false, CSV := false, Out := "out", WriteChan := false }
      envOk startupState).2 = [] :=
  c4_unknown_name_is_fatal_before_build _ envOk startupState
    (by decide) ⟨"FOO", by decide, by decide, Or.inr (by decide)⟩

/-!
Lemmas about Init, Encode and the sink.
-/

theorem sinkWrite_ok_frames (f : Frame) (s s2 : SinkState) (h : sinkWrite f s = .ok s2) :
    s2.frames = s.frames ++ [f] := by
  simp only [sinkWrite] at h
  cases he : s.errs with
  | nil =>
    rw [he] at h
    simp only [Except.ok.injEq] at h
    rw [← h]
  | cons b rest =>
    rw [he] at h
    cases b
    · simp only [Bool.false_eq_true, if_false, Except.ok.injEq] at h
      rw [← h]
    · simp at h

theorem sinkWrite_fails (f : Frame) (s : SinkState) (b : Bool) (tail : List Bool)
    (h : s.errs = b :: tail) (hb : b = true) :
    sinkWrite f s = .error "write error" := by
  subst hb
  simp [sinkWrite, h]

theorem Init_ok_fields (d : LayerEncoder) (b cp cs : Bool) (out : String) (wc : Bool)
    (io : List Bool) (d1 : LayerEncoder)
    (h : (d.Init b cp cs out wc io).1 = .ok d1) :
    d1.sink = { frames := [], errs := io } ∧ d1.csv = cs ∧ d1.compress = cp ∧
      d1.buffer = b ∧ d1.out = out ∧ d1.Typ = d.Typ ∧ d1.Layer = d.Layer ∧
      d1.Handler = d.Handler := by
  cases cs <;> cases wc <;> cases b <;> cases cp <;>
    simp only [LayerEncoder.Init, Bool.and_self, Bool.and_false, Bool.and_true,
      Bool.false_and, Bool.true_and, Bool.or_self, Bool.or_false, Bool.false_or,
      Bool.true_or, if_true, if_false, Bool.false_eq_true, Bool.true_eq_false] at h <;>
    first
      | (simp only [Outcome.ok.injEq] at h; subst h;
         exact ⟨rfl, rfl, rfl, rfl, rfl, rfl, rfl, rfl⟩)
      | exact Outcome.noConfusion h

theorem Init_shape (d : LayerEncoder) (b cp cs : Bool) (out : String) (wc : Bool)
    (io : List Bool) :
    (∃ e1, (d.Init b cp cs out wc io).1 = .ok e1) ∨
      (d.Init b cp cs out wc io).1 =
        .panicked "buffering or compression cannot be activated when running using writeChan" := by
  cases cs <;> cases wc <;> cases b <;> cases cp <;>
    first
      | exact .inl ⟨_, rfl⟩
      | exact .inr rfl

theorem Init_ok_writer (d : LayerEncoder) (b cp cs : Bool) (out : String) (wc : Bool)
    (io : List Bool) (d1 : LayerEncoder)
    (h : (d.Init b cp cs out wc io).1 = .ok d1) :
    ∃ w, writerHandedToEncoder d1 = some w ∧ w.isWriteSerializer = true := by
  cases cs <;> cases wc <;> cases b <;> cases cp <;>
    simp only [LayerEncoder.Init, Bool.and_self, Bool.and_false, Bool.and_true,
      Bool.false_and, Bool.true_and, Bool.or_self, Bool.or_false, Bool.false_or,
      Bool.true_or, if_true, if_false, Bool.false_eq_true, Bool.true_eq_false] at h <;>
    first
      | (simp only [Outcome.ok.injEq] at h; subst h; exact ⟨_, rfl, rfl⟩)
      | exact Outcome.noConfusion h

theorem Encode_ok_of_no_err (d : LayerEncoder) (l : GoLayer) (ts : String) (r : Rec)
    (hr : d.Handler l ts = some r) (he : d.sink.errs = []) :
    d.Encode l ts =
      .ok { d with sink := { frames := d.sink.frames ++ [Frame.dataF r], errs := [] } } := by
  simp only [LayerEncoder.Encode, hr, sinkWrite, he]
  cases hc : d.csv <;> simp

theorem Encode_ok_frames (d : LayerEncoder) (l : GoLayer) (ts : String) (d1 : LayerEncoder)
    (h : d.Encode l ts = .ok d1) :
    d1.sink.frames = d.sink.frames ∨
      ∃ rec, d1.sink.frames = d.sink.frames ++ [Frame.dataF rec] := by
  cases hr : d.Handler l ts with
  | none =>
    simp only [LayerEncoder.Encode, hr, Outcome.ok.injEq] at h
    subst h
    exact .inl rfl
  | some r =>
    simp only [LayerEncoder.Encode, hr] at h
    cases hw : sinkWrite (Frame.dataF r) d.sink with
    | ok s =>
      simp only [hw, ite_self, Outcome.ok.injEq] at h
      subst h
      exact .inr ⟨r, sinkWrite_ok_frames _ _ _ hw⟩
    | error m =>
      simp only [hw, ite_self] at h
      exact Outcome.noConfusion h

theorem runEncodes_all_ok :
    ∀ (calls : List (GoLayer × String)) (d : LayerEncoder),
      d.sink.errs = [] → (∀ p ∈ calls, d.Handler p.1 p.2 ≠ none) →
      ∃ d2, runEncodes d calls = .ok d2 ∧
        d2.sink.frames = d.sink.frames ++
          calls.map (fun p => Frame.dataF ((d.Handler p.1 p.2).getD "")) ∧
        d2.Handler = d.Handler := by
  intro calls
  induction calls with
  | nil => intro d _ _; exact ⟨d, rfl, by simp, rfl⟩
  | cons p t ih =>
    intro d he hall
    obtain ⟨l, ts⟩ := p
    cases hr : d.Handler l ts with
    | none => exact absurd hr (hall (l, ts) (List.mem_cons_self _ _))
    | some r =>
      have hstep := Encode_ok_of_no_err d l ts r hr he
      obtain ⟨d2, hrun, hframes, hh⟩ :=
        ih { d with sink := { frames := d.sink.frames ++ [Frame.dataF r], errs := [] } }
          rfl (fun q hq => hall q (List.mem_cons_of_mem _ hq))
      refine ⟨d2, ?_, ?_, hh⟩
      · show (match d.Encode l ts with
          | .ok d1 => runEncodes d1 t
          | .err m => .err m
          | .panicked m => .panicked m) = .ok d2
        rw [hstep]
        exact hrun
      · rw [hframes]
        simp [hr, List.map_cons]

theorem runEncodes_frames :
    ∀ (calls : List (GoLayer × String)) (d r : LayerEncoder),
      runEncodes d calls = .ok r →
      ∃ tail, r.sink.frames = d.sink.frames ++ tail ∧
        ∀ f ∈ tail, ∃ rec, f = Frame.dataF rec := by
  intro calls
  induction calls with
  | nil =>
    intro d r h
    simp only [runEncodes, Outcome.ok.injEq] at h
    subst h
    exact ⟨[], by simp, by simp⟩
  | cons p t ih =>
    intro d r h
    obtain ⟨l, ts⟩ := p
    have h3 : (match d.Encode l ts with
      | .ok d1 => runEncodes d1 t
      | .err m => (.err m : Outcome LayerEncoder)
      | .panicked m => .panicked m) = .ok r := h
    cases henc : d.Encode l ts with
    | ok d1 =>
      rw [henc] at h3
      obtain ⟨tail, ht, hall⟩ := ih d1 r h3
      rcases Encode_ok_frames d l ts d1 henc with hsame | ⟨rec, happ⟩
      · exact ⟨tail, by rw [ht, hsame], hall⟩
      · refine ⟨Frame.dataF rec :: tail, ?_, ?_⟩
        · rw [ht, happ]
          simp
        · intro f hf
          rcases List.mem_cons.mp hf with hf | hf
          · exact ⟨rec, hf⟩
          · exact hall f hf
    | err m =>
      rw [henc] at h3
      exact Outcome.noConfusion h3
    | panicked m =>
      rw [henc] at h3
      exact Outcome.noConfusion h3

/-- Claim C6: when the handler reports the layer as not applicable (a nil
record), Encode returns the encoder unchanged with a nil error, so nothing
at all reaches the sink. -/
theorem c6_not_applicable_is_silent_noop (d : LayerEncoder) (l : GoLayer) (ts : String)
    (h : d.Handler l ts = none) :
    d.Encode l ts = .ok d := by
  simp [LayerEncoder.Encode, h]

/-- Witness for c6_not_applicable_is_silent_noop: the stub handler reports
every layer as not applicable and Encode leaves the encoder untouched. -/
theorem c6_not_applicable_is_silent_noop_witness :
    ((CreateLayerEncoder 0 "TCP" stubHandler).Handler "layer" "ts" = none) ∧
      (CreateLayerEncoder 0 "TCP" stubHandler).Encode "layer" "ts" =
        .ok (CreateLayerEncoder 0 "TCP" stubHandler) :=
  ⟨rfl, c6_not_applicable_is_silent_noop (CreateLayerEncoder 0 "TCP" stubHandler) "layer" "ts" rfl⟩

/-- Claim C7: when the handler produces a record but the underlying sink
write fails, Encode returns the I/O error to the caller as an error value;
it makes exactly one write attempt and the result is an error return, not
a panic, so the process is not terminated and nothing is retried. -/
theorem c7_write_error_returned_to_caller (d : LayerEncoder) (l : GoLayer) (ts : String)
    (r : Rec) (tail : List Bool)
    (hr : d.Handler l ts = some r) (he : d.sink.errs = true :: tail) :
    d.Encode l ts = .err "write error" := by
  have hw : sinkWrite (Frame.dataF r) d.sink = .error "write error" :=
    sinkWrite_fails _ _ _ _ he rfl
  simp [LayerEncoder.Encode, hr, hw, ite_self]

/-- Handler producing one record per call, for concrete witnesses. -/
def liveHandler : LayerEncoderHandler := fun l ts => some (l ++ "@" ++ ts)

/-- Encoder whose next sink write is set to fail. -/
def failingEncoder : LayerEncoder :=
  { CreateLayerEncoder 1 "UDP" liveHandler with
    sink := { frames := [], errs := [true] } }

/-- Witness for c7_write_error_returned_to_caller on the failing
encoder. -/
theorem c7_write_error_returned_to_caller_witness :
    (failingEncoder.Handler "layer" "ts" = some "layer@ts") ∧
      failingEncoder.sink.errs = true :: [] ∧
      failingEncoder.Encode "layer" "ts" = .err "write error" :=
  ⟨rfl, rfl,
    c7_write_error_returned_to_caller failingEncoder "layer" "ts" "layer@ts" [] rfl rfl⟩

/-- Claim C2: every successfully initialized encoder hands its records to a
write-serializing wrapper (the atomic delimited writer for binary and live
sinks, the csv writer for tabular sinks), and a batch of record-producing
Encode calls, executed in the order in which the serializer admits them,
deposits exactly one complete frame per call in the sink, with no
interleaving, one frame per record. -/
theorem c2_sink_write_serialization (d : LayerEncoder) (buffer compress csv wc : Bool)
    (out : String) (d1 : LayerEncoder)
    (h : (d.Init buffer compress csv out wc []).1 = .ok d1) :
    (∃ w, writerHandedToEncoder d1 = some w ∧ w.isWriteSerializer = true) ∧
      ∀ calls : List (GoLayer × String),
        (∀ p ∈ calls, d1.Handler p.1 p.2 ≠ none) →
        ∃ d2, runEncodes d1 calls = .ok d2 ∧
          d2.sink.frames = d1.sink.frames ++
            calls.map (fun p => Frame.dataF ((d1.Handler p.1 p.2).getD "")) ∧
          (calls.map (fun p => Frame.dataF ((d1.Handler p.1 p.2).getD ""))).length =
            calls.length := by
  constructor
  · exact Init_ok_writer d buffer compress csv out wc [] d1 h
  · intro calls hall
    have herrs : d1.sink.errs = [] := by
      rw [(Init_ok_fields d buffer compress csv out wc [] d1 h).1]
    obtain ⟨d2, h1, h2, -⟩ := runEncodes_all_ok calls d1 herrs hall
    exact ⟨d2, h1, h2, by simp⟩

/-- The encoder state left by a successful Init, for naming concrete
initialized encoders in witnesses. -/
def afterInit (d : LayerEncoder) (b cp cs : Bool) (out : String) (wc : Bool)
    (io : List Bool) : LayerEncoder :=
  match (d.Init b cp cs out wc io).1 with
  | .ok e => e
  | .err _ => d
  | .panicked _ => d

/-- Witness for c2_sink_write_serialization: a binary file-backed encoder
built from the live handler. -/
theorem c2_sink_write_serialization_witness :
    ((CreateLayerEncoder 0 "TCP" liveHandler).Init false false false "out" false []).1 =
        .ok (afterInit (CreateLayerEncoder 0 "TCP" liveHandler) false false false "out" false []) ∧
      ((∃ w, writerHandedToEncoder
          (afterInit (CreateLayerEncoder 0 "TCP" liveHandler) false false false "out" false []) =
          some w ∧ w.isWriteSerializer = true) ∧
        ∀ calls : List (GoLayer × String),
          (∀ p ∈ calls,
            (afterInit (CreateLayerEncoder 0 "TCP" liveHandler) false false false "out" false
              []).Handler p.1 p.2 ≠ none) →
          ∃ d2, runEncodes
              (afterInit (CreateLayerEncoder 0 "TCP" liveHandler) false false false "out" false [])
              calls = .ok d2 ∧
            d2.sink.frames =
              (afterInit (CreateLayerEncoder 0 "TCP" liveHandler) false false false "out" false
                []).sink.frames ++
              calls.map (fun p => Frame.dataF
                (((afterInit (CreateLayerEncoder 0 "TCP" liveHandler) false false false "out" false
                  []).Handler p.1 p.2).getD "")) ∧
            (calls.map (fun p => Frame.dataF
              (((afterInit (CreateLayerEncoder 0 "TCP" liveHandler) false false false "out" false
                []).Handler p.1 p.2).getD ""))).length = calls.length) :=
  ⟨rfl, c2_sink_write_serialization (CreateLayerEncoder 0 "TCP" liveHandler)
    false false false false "out"
    (afterInit (CreateLayerEncoder 0 "TCP" liveHandler) false false false "out" false []) rfl⟩

/-- Claim C3 counterexample: a tabular configuration combining liveStream
with buffering is not rejected, because the tabular branch of Init returns
before the writeChan check is reached; initialization succeeds and the csv
file is created, refuting the claim that the rejection happens for both
output shapes before any file is created. -/
theorem c3_counterexample_tabular_livestream :
    Outcome.isPanic
        ((CreateLayerEncoder 0 "TCP" stubHandler).Init true false true "out" true []).1 = false ∧
      ((CreateLayerEncoder 0 "TCP" stubHandler).Init true false true "out" true []).2 =
        [Event.fileCreated "out/TCP.csv"] :=
  ⟨rfl, rfl⟩

/-- Claim C3 as amended: for binary output only, liveStream combined with
buffering or compression panics during Init before any file is created;
the tabular branch never performs this check. -/
theorem c3_livestream_rejection_binary (d : LayerEncoder) (buffer compress : Bool)
    (out : String) (io : List Bool) (h : buffer = true ∨ compress = true) :
    (d.Init buffer compress false out true io).1 =
        .panicked "buffering or compression cannot be activated when running using writeChan" ∧
      (d.Init buffer compress false out true io).2 = [] := by
  rcases h with h | h <;> subst h
  · cases compress <;> exact ⟨rfl, rfl⟩
  · cases buffer <;> exact ⟨rfl, rfl⟩

/-- Witness for c3_livestream_rejection_binary at buffer set and
compression clear. -/
theorem c3_livestream_rejection_binary_witness :
    ((true : Bool) = true ∨ (false : Bool) = true) ∧
      (((CreateLayerEncoder 0 "TCP" stubHandler).Init true false false "out" true []).1 =
          .panicked "buffering or compression cannot be activated when running using writeChan" ∧
        ((CreateLayerEncoder 0 "TCP" stubHandler).Init true false false "out" true []).2 = []) :=
  ⟨Or.inl rfl, c3_livestream_rejection_binary (CreateLayerEncoder 0 "TCP" stubHandler)
    true false "out" [] (Or.inl rfl)⟩

/-- Claim C8: Destroy performs its teardown in the strict order gzip
finalization first (only when compression is active), then buffer flush
(only when buffering is active), then file close, and it returns the file
name and size reported by the close. -/
theorem c8_destroy_order (d : LayerEncoder) :
    d.Destroy = ((d.file.getD "", d.sink.frames.length),
      (if d.compress then [Event.gzipClosed] else []) ++
        (if d.buffer then [Event.buffersFlushed] else []) ++
        [Event.fileClosed (d.file.getD "")]) := rfl

/-- Claim C9: the sink file created by Init is named by the protocol layer
inside the configured output directory, with extension csv or csv.gz for
tabular output and ncap or ncap.gz for binary file-backed output,
depending on the compression flag. -/
theorem c9_sink_file_names (d : LayerEncoder) (buffer compress wc : Bool) (out : String)
    (io : List Bool) :
    (∃ d1, (d.Init buffer compress true out wc io).1 = .ok d1 ∧
        d1.file = some (pathJoin out d.Layer ++ (if compress then ".csv.gz" else ".csv"))) ∧
      ((d.Init buffer compress true out wc io).2 =
        [Event.fileCreated (pathJoin out d.Layer ++ (if compress then ".csv.gz" else ".csv"))]) ∧
      (∃ d1, (d.Init buffer compress false out false io).1 = .ok d1 ∧
        d1.file = some (pathJoin out d.Layer ++ (if compress then ".ncap.gz" else ".ncap"))) ∧
      ((d.Init buffer compress false out false io).2 =
        [Event.fileCreated (pathJoin out d.Layer ++ (if compress then ".ncap.gz" else ".ncap"))]) := by
  cases buffer <;> cases compress <;> cases wc <;>
    exact ⟨⟨_, rfl, rfl⟩, rfl, ⟨_, rfl, rfl⟩, rfl⟩

theorem initLoop_ok_registry (c : Config) (env : String → List Bool) :
    ∀ (l : List LayerEncoder) (reg reg' : List (String × LayerEncoder)),
      (initLoop c env l reg).1 = .ok reg' →
      ∃ new, reg' = reg ++ new ∧
        ∀ p ∈ new, p.2.sink.frames = [headerFrame c.CSV p.2.Typ] := by
  intro l
  induction l with
  | nil =>
    intro reg reg' h
    have h2 : (Outcome.ok reg : Outcome (List (String × LayerEncoder))) = .ok reg' := h
    simp only [Outcome.ok.injEq] at h2
    subst h2
    exact ⟨[], by simp, by simp⟩
  | cons e t ih =>
    intro reg reg' h
    simp only [initLoop] at h
    cases hi : (e.Init c.Buffer c.Compression c.CSV c.Out c.WriteChan (env e.Layer)).1 with
    | err m => simp only [hi] at h; exact Outcome.noConfusion h
    | panicked m => simp only [hi] at h; exact Outcome.noConfusion h
    | ok e1 =>
      simp only [hi] at h
      cases hw : sinkWrite (headerFrame e1.csv e1.Typ) e1.sink with
      | error m => simp only [hw] at h; exact Outcome.noConfusion h
      | ok s =>
        simp only [hw] at h
        obtain ⟨new, hnew, hprop⟩ := ih (reg ++ [(e1.Layer, { e1 with sink := s })]) reg' h
        refine ⟨(e1.Layer, { e1 with sink := s }) :: new, ?_, ?_⟩
        · rw [hnew]
          simp
        · intro p hp
          rcases List.mem_cons.mp hp with hp | hp
          · subst hp
            obtain ⟨hsink, hcsv, -⟩ :=
              Init_ok_fields e c.Buffer c.Compression c.CSV c.Out c.WriteChan (env e.Layer) e1 hi
            show s.frames = [headerFrame c.CSV e1.Typ]
            rw [sinkWrite_ok_frames _ _ _ hw, hcsv, hsink]
            simp
          · exact hprop p hp

theorem initLoop_header_failure_panics (c : Config) (env : String → List Bool) :
    ∀ (l : List LayerEncoder) (reg : List (String × LayerEncoder)),
      (∃ e ∈ l, (env e.Layer).headD false = true) →
      ∃ m, (initLoop c env l reg).1 = .panicked m := by
  intro l
  induction l with
  | nil =>
    rintro reg ⟨e, he, -⟩
    exact absurd he (List.not_mem_nil e)
  | cons e t ih =>
    rintro reg ⟨e0, hmem, hfail⟩
    rcases Init_shape e c.Buffer c.Compression c.CSV c.Out c.WriteChan (env e.Layer) with
      ⟨e1, hi⟩ | hi
    · cases hw : sinkWrite (headerFrame e1.csv e1.Typ) e1.sink with
      | error m =>
        refine ⟨m, ?_⟩
        simp only [initLoop, hi, hw]
      | ok s =>
        have hecur : ¬(env e.Layer).headD false = true := by
          intro hcur
          obtain ⟨hsink, -⟩ :=
            Init_ok_fields e c.Buffer c.Compression c.CSV c.Out c.WriteChan (env e.Layer) e1 hi
          cases henv : env e.Layer with
          | nil => rw [henv] at hcur; simp at hcur
          | cons bb tt =>
            rw [henv] at hcur
            simp only [List.headD_cons] at hcur
            have hfailw : sinkWrite (headerFrame e1.csv e1.Typ) e1.sink = .error "write error" := by
              apply sinkWrite_fails _ _ bb tt _ hcur
              rw [hsink, henv]
            rw [hfailw] at hw
            exact Except.noConfusion hw
        have het : e0 ∈ t := by
          rcases List.mem_cons.mp hmem with h1 | h1
          · subst h1; exact absurd hfail hecur
          · exact h1
        obtain ⟨m, hm⟩ := ih (reg ++ [(e1.Layer, { e1 with sink := s })]) ⟨e0, het, hfail⟩
        refine ⟨m, ?_⟩
        simp only [initLoop, hi, hw]
        exact hm
    · refine ⟨"buffering or compression cannot be activated when running using writeChan", ?_⟩
      simp only [initLoop, hi]

/-- Claim C5: on a successful InitLayerEncoders run every newly registered
encoder holds exactly its schema header frame in the sink, written before
any data frame, the header being the column row for tabular output and the
synthetic header record otherwise; if the header write of any resolved
encoder fails, InitLayerEncoders panics; and Encode runs only ever append
data frames after the existing sink content, so the header stays first and
unique. -/
theorem c5_header_written_once_first (c : Config) (env : String → List Bool) (st : PkgState) :
    (∀ st1, (InitLayerEncoders c env st).1 = .ok st1 →
      ∃ new, st1.LayerEncoders = st.LayerEncoders ++ new ∧
        ∀ p ∈ new, p.2.sink.frames = [headerFrame c.CSV p.2.Typ]) ∧
      (∀ slice, resolveSlice st.allEncoderNames st.layerEncoderSlice c.IncludeEncoders
          c.ExcludeEncoders = .ok slice →
        (∃ e ∈ slice, (env e.Layer).headD false = true) →
        ∃ m, (InitLayerEncoders c env st).1 = .panicked m) ∧
      (∀ (d r : LayerEncoder) (calls : List (GoLayer × String)),
        runEncodes d calls = .ok r →
        ∃ tail, r.sink.frames = d.sink.frames ++ tail ∧
          ∀ f ∈ tail, ∃ rec, f = Frame.dataF rec) := by
  refine ⟨?_, ?_, ?_⟩
  · intro st1 h
    cases hres : resolveSlice st.allEncoderNames st.layerEncoderSlice c.IncludeEncoders
        c.ExcludeEncoders with
    | ok slice =>
      simp only [InitLayerEncoders, hres] at h
      cases hloop : (initLoop c env slice st.LayerEncoders).1 with
      | ok reg =>
        simp only [hloop, Outcome.ok.injEq] at h
        obtain ⟨new, hnew, hprop⟩ := initLoop_ok_registry c env slice st.LayerEncoders reg hloop
        subst h
        exact ⟨new, hnew, hprop⟩
      | err m => simp only [hloop] at h; exact Outcome.noConfusion h
      | panicked m => simp only [hloop] at h; exact Outcome.noConfusion h
    | err m => simp only [InitLayerEncoders, hres] at h; exact Outcome.noConfusion h
    | panicked m => simp only [InitLayerEncoders, hres] at h; exact Outcome.noConfusion h
  · intro slice hres hfail
    obtain ⟨m, hm⟩ := initLoop_header_failure_panics c env slice st.LayerEncoders hfail
    refine ⟨m, ?_⟩
    simp only [InitLayerEncoders, hres, hm]
  · exact fun d r calls h => runEncodes_frames calls d r h

/-- The package state left by a successful InitLayerEncoders run, for
naming concrete states in witnesses. -/
def stateAfter (c : Config) (env : String → List Bool) (st : PkgState) : PkgState :=
  match (InitLayerEncoders c env st).1 with
  | .ok s => s
  | .err _ => st
  | .panicked _ => st

/-- Configuration selecting TCP and UDP, binary file-backed output. -/
def cfgTcpUdp : Config :=
  { IncludeEncoders := "TCP,UDP", ExcludeEncoders := "", Buffer := false,
    Compression := false, CSV := false, Out := "out", WriteChan := false }

/-- Witness for c5_header_written_once_first: initializing the TCP and UDP
selection registers encoders whose sinks hold exactly the header frame. -/
theorem c5_header_written_once_first_witness :
    ∃ new, (stateAfter cfgTcpUdp envOk startupState).LayerEncoders =
        startupState.LayerEncoders ++ new ∧
      ∀ p ∈ new, p.2.sink.frames = [headerFrame cfgTcpUdp.CSV p.2.Typ] :=
  (c5_header_written_once_first cfgTcpUdp envOk startupState).1
    (stateAfter cfgTcpUdp envOk startupState) rfl

/-- Configuration excluding DNS, binary file-backed output. -/
def cfgExclDNS : Config :=
  { IncludeEncoders := "", ExcludeEncoders := "DNS", Buffer := false,
    Compression := false, CSV := false, Out := "out", WriteChan := false }

/-- Claim C10: InitLayerEncoders overwrites the package-level slice with
its resolution result, so a second call resolves against the remnant of
the first call instead of the original catalog: after a first call
including only TCP and UDP, a second call excluding DNS still yields only
TCP and UDP, while resolving the original catalog with the same exclusion
per the spec formula yields the full catalog without DNS. -/
theorem c10_resolution_not_repeatable :
    ∃ st1 st2,
      (InitLayerEncoders cfgTcpUdp envOk startupState).1 = .ok st1 ∧
      st1.layerEncoderSlice.map (fun e => e.Layer) = ["TCP", "UDP"] ∧
      (InitLayerEncoders cfgExclDNS envOk st1).1 = .ok st2 ∧
      st2.layerEncoderSlice.map (fun e => e.Layer) = ["TCP", "UDP"] ∧
      (specResolve netcapCatalog [] (splitComma "DNS")).map (fun e => e.Layer) ≠
        ["TCP", "UDP"] := by
  refine ⟨_, _, rfl, rfl, rfl, rfl, ?_⟩
  decide
